import Mathlib

/-!
Verification development for the `statement-parser` repository.

The repository converts bank-statement PDFs into structured transaction
records.  Two parts are embedded here, translated from the TypeScript
source:

* `src/pdf/read-pdf.ts` — the positional line reconstructor (`readPdf`):
  glyph fragments are bucketed by the rounded vertical coordinate,
  buckets are sorted top-to-bottom, fragments inside a bucket
  left-to-right, joined with single spaces, trimmed, and empty lines are
  dropped.

* `src/parser/implemented-parsers/fab-bank-account-parser.ts` — the FAB
  bank plugin (state machine `Header → TransactionLines → End`, the
  transaction-line recogniser, and income/expense classification), plus
  a second revision of the same plugin that keeps a module-level
  "pending transaction" carry variable, modelled as explicitly threaded
  state.

All string work is done on `List Char` (`String.data`), which matches
JavaScript string semantics for the ASCII inputs the parser handles.
JavaScript numbers produced by `parseFloat` are modelled as `Option ℚ`
(`none` standing for `NaN`); machine-float rounding is irrelevant at the
decimal magnitudes the parser touches, and every comparison the source
performs (`> 0`, `Math.abs`, negation) is exact.
-/

/-! ### Character classes and basic list utilities -/

/-- JavaScript `\d`: an ASCII digit. -/
def isDig (c : Char) : Bool := c.isDigit

/-- JavaScript `\w`: ASCII letter, digit or underscore. -/
def isWordCh (c : Char) : Bool := c.isAlphanum || c = '_'

/-- JavaScript `\s` restricted to the ASCII whitespace actually present in
statement text: space, tab, newline, carriage return. -/
def isWs (c : Char) : Bool := c = ' ' || c = '\t' || c = '\n' || c = '\r'

/-- Character class `[\d,]` used by the amount/balance regexes. -/
def isDigComma (c : Char) : Bool := isDig c || c = ','

/-- ASCII lower-casing, the fragment of `String.prototype.toLowerCase`
exercised by the parser's keyword tests. -/
def lowerChar (c : Char) : Char :=
  if 'A' ≤ c && c ≤ 'Z' then Char.ofNat (c.toNat + 32) else c

/-- `s.toLowerCase()` on the underlying character list. -/
def lowerL (cs : List Char) : List Char := cs.map lowerChar

/-- `s.trim()`: drop whitespace from both ends. -/
def trimL (cs : List Char) : List Char :=
  ((cs.dropWhile isWs).reverse.dropWhile isWs).reverse

/-- `s.trim()` packaged on `String`. -/
def jsTrim (s : String) : String := String.mk (trimL s.data)

/-- `s.toLowerCase()` packaged on `String`. -/
def jsLower (s : String) : String := String.mk (lowerL s.data)

/-- Does `needle` occur at the start of `hay`?  (JS `startsWith`.) -/
def prefixCheck : List Char → List Char → Bool
  | [], _ => true
  | _ :: _, [] => false
  | c :: cs, d :: ds => c = d && prefixCheck cs ds

/-- Does `needle` occur anywhere inside `hay`?  (JS `includes`.) -/
def infixCheck (needle : List Char) : List Char → Bool
  | [] => needle.isEmpty
  | c :: t => prefixCheck needle (c :: t) || infixCheck needle t

/-- `hay.includes(needle)` on `String`. -/
def containsS (hay needle : String) : Bool := infixCheck needle.data hay.data

/-- Scan a string's suffixes left to right and return the first success of
`p` — the semantics of an unanchored JavaScript regex search, where `p`
decides a match starting at the given position. -/
def scanSuffixes {α : Type} (p : List Char → Option α) : List Char → Option α
  | [] => p []
  | c :: t =>
    match p (c :: t) with
    | some r => some r
    | none => scanSuffixes p t

/-- Match a fixed template of character classes, returning the consumed
characters. -/
def matchTemplate : List (Char → Bool) → List Char → Option (List Char)
  | [], _ => some []
  | _ :: _, [] => none
  | p :: ps, c :: cs =>
    if p c then (matchTemplate ps cs).map (fun r => c :: r) else none

/-- Whitespace tokenizer: maximal runs of non-whitespace characters.
`cur` accumulates the current word reversed. -/
def tokensGo (cur : List Char) : List Char → List (List Char)
  | [] => if cur.isEmpty then [] else [cur.reverse]
  | c :: t =>
    if isWs c then
      if cur.isEmpty then tokensGo [] t else cur.reverse :: tokensGo [] t
    else tokensGo (c :: cur) t

/-- The whitespace-separated tokens of a character list. -/
def tokens (cs : List Char) : List (List Char) := tokensGo [] cs

/-- Join tokens with single spaces.  `joinTokens (tokens s)` is exactly
JavaScript's `s.replace(/\s+/g, ' ').trim()`. -/
def joinTokens : List (List Char) → List Char
  | [] => []
  | [w] => w
  | w :: ws => w ++ ' ' :: joinTokens ws

/-- JS `s.split(sep)` for a single-character separator (empty pieces kept,
as in JavaScript). -/
def splitChar (sep : Char) : List Char → List (List Char)
  | [] => [[]]
  | c :: t =>
    if c = sep then [] :: splitChar sep t
    else
      match splitChar sep t with
      | w :: ws => (c :: w) :: ws
      | [] => [[c]]

/-- Numeric value of a digit list (most significant first). -/
def natVal (cs : List Char) : ℕ := cs.foldl (fun n c => 10 * n + (c.toNat - 48)) 0

/-! ### JavaScript numbers

`parseFloat` results are modelled as `Option ℚ`, with `none` for `NaN`
(the source can produce `NaN` by running `parseFloat` on a string that
contains no digits, e.g. an amount field matched as `","`). -/

/-- `parseFloat` on the digit/dot strings the parser feeds it (a string
matching `\d*\.?\d*…`): integer part, optional fraction; `none` when no
digit is read (JavaScript `NaN`). -/
def jsParseFloat (cs : List Char) : Option ℚ :=
  let ip := cs.takeWhile isDig
  let r1 := cs.dropWhile isDig
  match r1 with
  | '.' :: r2 =>
    let fp := r2.takeWhile isDig
    if ip.isEmpty && fp.isEmpty then none
    else some (mkRat (natVal ip * 10 ^ fp.length + natVal fp) (10 ^ fp.length))
  | _ => if ip.isEmpty then none else some (mkRat (natVal ip) 1)

/-- `removeCommasFromNumberString` from `augment-vir`: drop every comma. -/
def removeCommas (cs : List Char) : List Char := cs.filter (fun c => !(c = ','))

/-- `parseAmount` = `parseFloat(removeCommasFromNumberString(s))`. -/
def parseAmountL (cs : List Char) : Option ℚ := jsParseFloat (removeCommas cs)

/-- `Math.abs`, with `Math.abs(NaN) = NaN`. -/
def jsAbs (x : Option ℚ) : Option ℚ := x.map (fun q => |q|)

/-- Unary minus, with `-NaN = NaN`. -/
def jsNeg (x : Option ℚ) : Option ℚ := x.map (fun q => -q)

/-- The JavaScript comparison `x > 0` (false on `NaN`). -/
def jsGt0 (x : Option ℚ) : Bool :=
  match x with
  | none => false
  | some q => decide (0 < q)

/-! ### The line reconstructor (`src/pdf/read-pdf.ts`, `readPdf`) -/

/-- One positioned text run from `page.getTextContent()`: the string, the
horizontal coordinate `transform[4]` and the vertical coordinate
`transform[5]`.  Items without a string or coordinates are filtered out
by the source before bucketing and are not modelled. -/
structure PdfItem where
  str : String
  x : ℚ
  y : ℚ
deriving DecidableEq, Repr

/-- `Math.round`: round half towards positive infinity, that is
`⌊q + 1/2⌋`, computed directly on the reduced fraction so that it
evaluates by kernel reduction (`jsRound_eq_floor` below proves the
floor characterization). -/
def jsRound (q : ℚ) : ℤ := (2 * q.num + (q.den : ℤ)) / (2 * (q.den : ℤ))

/-- The bucket of a rounded vertical coordinate: the items pushed into
`itemsByY[k]`, in arrival order. -/
def bucketOf (items : List PdfItem) (k : ℤ) : List PdfItem :=
  items.filter (fun i => jsRound i.y == k)

instance pdfItemLeXTotal : IsTotal PdfItem (fun a b => a.x ≤ b.x) :=
  ⟨fun a b => le_total a.x b.x⟩

instance pdfItemLeXTrans : IsTrans PdfItem (fun a b => a.x ≤ b.x) :=
  ⟨fun _ _ _ h1 h2 => le_trans h1 h2⟩

instance intGeTotal : IsTotal ℤ (fun a b => b ≤ a) := ⟨fun a b => le_total b a⟩

instance intGeTrans : IsTrans ℤ (fun a b => b ≤ a) :=
  ⟨fun _ _ _ h1 h2 => le_trans h2 h1⟩

/-- A bucket sorted by horizontal coordinate ascending
(`sort((a, b) => a.transform[4] - b.transform[4])`; stable, as JS sort
is, though no claim depends on tie order). -/
def sortedBucket (items : List PdfItem) (k : ℤ) : List PdfItem :=
  (bucketOf items k).insertionSort (fun a b => a.x ≤ b.x)

/-- The distinct rounded vertical coordinates of a page, sorted
descending (`Object.keys(itemsByY).map(parseInt).sort((a, b) => b - a)`). -/
def pageKeys (items : List PdfItem) : List ℤ :=
  ((items.map (fun i => jsRound i.y)).dedup).insertionSort (fun a b => b ≤ a)

/-- The text of one bucket: fragment strings joined with single spaces,
then trimmed (`lineItems.map(item => item.str).join(' ').trim()`). -/
def lineOfBucket (items : List PdfItem) (k : ℤ) : String :=
  jsTrim (String.mk (joinTokens ((sortedBucket items k).map (fun i => i.str.data))))

/-- One page of `readPdf`: buckets in descending-`y` order, each joined
and trimmed, empty lines dropped. -/
def processPage (items : List PdfItem) : List String :=
  (pageKeys items).filterMap (fun k =>
    let t := lineOfBucket items k
    if t = "" then none else some t)

/-- `readPdf`: the document's pages, each reconstructed independently and
returned as its own array (`pages.push(lines); return pages`). -/
def readPdfModel (pages : List (List PdfItem)) : List (List String) :=
  pages.map processPage

/-- Modelled from the spec: the Line Reconstructor contract of §4.1
produces one flat, whole-document sequence — per-page reconstruction
(steps 1–4) followed by concatenation of the pages' line sequences in
page order (step 5).  The flattening step is not part of `readPdf`
itself in the source. -/
def reconstructSpec : List (List PdfItem) → List String
  | [] => []
  | p :: ps => processPage p ++ reconstructSpec ps

/-- The rounded keys whose buckets survive the empty-line filter, in
output order. -/
def emittedKeys (items : List PdfItem) : List ℤ :=
  (pageKeys items).filter (fun k => decide (¬ lineOfBucket items k = ""))

/-- Index of the first occurrence of `k`. -/
def firstIdx : List ℤ → ℤ → Option ℕ
  | [], _ => none
  | a :: l, k => if a = k then some 0 else (firstIdx l k).map (fun n => n + 1)

/-- Does the reconstructed line holding fragment `f` appear strictly
before the line holding fragment `g` in the page's output sequence?
Lines are identified by their bucket key; `false` when either line was
dropped as empty. -/
def linePrecedesB (items : List PdfItem) (f g : PdfItem) : Bool :=
  match firstIdx (emittedKeys items) (jsRound f.y),
        firstIdx (emittedKeys items) (jsRound g.y) with
  | some i, some j => decide (i < j)
  | _, _ => false

/-! ### Shared FAB parser pieces

Types and helpers shared by both revisions of the FAB bank-account
parser (`src/parser/implemented-parsers/fab-bank-account-parser.ts` and
the revision kept under `src/unnamed/part_001`). -/

/-- The FAB plugin's state enumeration. -/
inductive State where
  | Header
  | TransactionLines
  | End
deriving DecidableEq, Repr

/-- A parsed calendar date (the `Date` produced by
`createDateFromUtcIsoFormat`), kept as its UTC year/month/day. -/
structure FabDate where
  year : ℕ
  month : ℕ
  day : ℕ
deriving DecidableEq, Repr

/-- A `ParsedTransaction`. -/
structure Transaction where
  date : FabDate
  description : String
  amount : Option ℚ
  originalText : List String
deriving DecidableEq, Repr

/-- The `ParsedOutput` accumulator. -/
structure ParsedOutput where
  name : Option String
  accountSuffix : Option String
  yearPrefix : Option ℤ
  startDate : Option FabDate
  endDate : Option FabDate
  incomes : List Transaction
  expenses : List Transaction
deriving DecidableEq, Repr

/-- Modelled from the spec: the driver's initial accumulator ("typically
an empty structure", §4.2) — the generic `statement-parser.ts` driver is
not among the provided sources.  Empty transaction lists, all optional
fields unset. -/
def initialOutput : ParsedOutput :=
  { name := none, accountSuffix := none, yearPrefix := none,
    startDate := none, endDate := none, incomes := [], expenses := [] }

/-- The options bag reaching the plugin
(`CombineWithBaseParserOptions<undefined>`): the year-prefix
disambiguator. -/
structure ParserOptions where
  yearPrefix : ℤ
deriving DecidableEq, Repr

/-- JavaScript truthiness test of `output.yearPrefix` (`undefined` and
`0` are falsy). -/
def yearPrefixFalsy (y : Option ℤ) : Bool :=
  match y with
  | none => true
  | some v => v == 0

/-- Digit characters to a number, `none` when empty or a non-digit
appears (such a component makes the ISO date string invalid). -/
def natDigits (cs : List Char) : Option ℕ :=
  if cs.isEmpty || !(cs.all isDig) then none else some (natVal cs)

/-- Modelled from the spec: `createDateFromUtcIsoFormat` from the
external `augment-vir` library applied to the `${year}-${month}-${day}`
string that `parseDate` builds.  A date within the ISO grammar's bounds
parses to the corresponding UTC instant; an out-of-bounds component
yields no date (the source wraps the call in `try`/`catch` and returns
`undefined` on failure).  The month is always `01`–`12` here, coming
from the month table. -/
def mkUtcDate (yearCs : List Char) (month : ℕ) (dayCs : List Char) : Option FabDate :=
  match natDigits yearCs, natDigits dayCs with
  | some y, some d => if 1 ≤ d && d ≤ 31 then some ⟨y, month, d⟩ else none
  | _, _ => none

/-- The month-name table of `parseDate`. -/
def monthNum (cs : List Char) : Option ℕ :=
  if cs = "JAN".data then some 1
  else if cs = "FEB".data then some 2
  else if cs = "MAR".data then some 3
  else if cs = "APR".data then some 4
  else if cs = "MAY".data then some 5
  else if cs = "JUN".data then some 6
  else if cs = "JUL".data then some 7
  else if cs = "AUG".data then some 8
  else if cs = "SEP".data then some 9
  else if cs = "OCT".data then some 10
  else if cs = "NOV".data then some 11
  else if cs = "DEC".data then some 12
  else none

/-- `day.padStart(2, '0')`. -/
def padTo2 (cs : List Char) : List Char :=
  if cs.length ≥ 2 then cs
  else if cs.length = 1 then '0' :: cs
  else ['0', '0']

/-- `parseDate`: split `"01 APR 2025"` on spaces, require three nonempty
parts, look the month up, and build the UTC date. -/
def parseDate (s : String) : Option FabDate :=
  match splitChar ' ' s.data with
  | [p0, p1, p2] =>
    if !p0.isEmpty && !p1.isEmpty && !p2.isEmpty then
      match monthNum p1 with
      | some m => mkUtcDate p2 m (padTo2 p0)
      | none => none
    else none
  | _ => none

/-- Shape test for one `\d{2} \w{3} \d{4}` date in token form (each
component is a full token of the space-normalized line, since the
pattern continues with whitespace). -/
def dateTokB (d m y : List Char) : Bool :=
  d.length == 2 && d.all isDig && m.length == 3 && m.all isWordCh &&
  y.length == 4 && y.all isDig

/-- The test `cleanLine.match(/^\d{2} \w{3} \d{4}/)` on the tokens of the
space-normalized line (the trailing `\d{4}` may continue into a longer
token because the pattern is not anchored on the right). -/
def startsDateB (ts : List (List Char)) : Bool :=
  match ts with
  | d :: m :: y :: _ =>
    d.length == 2 && d.all isDig && m.length == 3 && m.all isWordCh &&
    (y.take 4).length == 4 && (y.take 4).all isDig
  | _ => false

/-- Full-token match of `[\d,]+\.?\d*`: a nonempty run of digits/commas,
then optionally a dot followed by digits only. -/
def numTokB (w : List Char) : Bool :=
  let run := w.takeWhile isDigComma
  let rest := w.dropWhile isDigComma
  !run.isEmpty &&
    (rest.isEmpty ||
      (match rest with
       | '.' :: r2 => r2.all isDig
       | _ => false))

/-- The transaction regex
`/^(\d{2} \w{3} \d{4})\s+(\d{2} \w{3} \d{4})\s+(.+?)\s+([\d,]+\.?\d*)\s+([\d,]+\.?\d*)$/`
on the tokens of the space-normalized line.  Because the line has
single spaces only, the lazy `(.+?)` and the end anchor force a unique
split: two date triples, a nonempty run of description tokens, and the
amount and balance as the last two tokens.  Returns the captured
groups `(dateStr, description, amountStr, balanceStr)`. -/
def regularMatchToks (ts : List (List Char)) :
    Option (List Char × List Char × List Char × List Char) :=
  match ts with
  | d1 :: m1 :: y1 :: d2 :: m2 :: y2 :: rest =>
    if dateTokB d1 m1 y1 && dateTokB d2 m2 y2 then
      match rest.reverse with
      | bal :: amt :: descRev =>
        if !descRev.isEmpty && numTokB amt && numTokB bal then
          some (joinTokens [d1, m1, y1], joinTokens descRev.reverse, amt, bal)
        else none
      | _ => none
    else none
  | _ => none

/-- Leftmost, greedy match of `([\d,]+\.?\d*)` anywhere in a string
(`fullDesc.match(/([\d,]+\.?\d*)/)`). -/
def firstNumMatch : List Char → Option (List Char)
  | [] => none
  | c :: t =>
    if isDigComma c then
      let run := (c :: t).takeWhile isDigComma
      let rest := (c :: t).dropWhile isDigComma
      some (match rest with
            | '.' :: r2 => run ++ '.' :: r2.takeWhile isDig
            | _ => run)
    else firstNumMatch t

/-- `fullDesc.replace(/\s+[\d,]+\.?\d*.*$/, '')` in token form: drop
everything from the first non-initial token that starts with a digit or
comma (the `\s+` in the pattern pins the number to a token start). -/
def dropFromNumTok (first : List Char) : List (List Char) → List (List Char)
  | [] => [first]
  | w :: ws =>
    match w with
    | c :: _ => if isDigComma c then [first] else first :: dropFromNumTok w ws
    | [] => first :: dropFromNumTok w ws

/-- The description with its trailing amount text removed, per the
pattern-2 cleanup of the source. -/
def stripAmountTail (descToks : List (List Char)) : List Char :=
  match descToks with
  | [] => []
  | w :: ws => joinTokens (dropFromNumTok w ws)

/-! ### `AC-NUM`, customer-name and statement-period extraction -/

/-- Template for the captured group of
`/AC-NUM (\d{3}-\d{3}-\d{7}-\d{2}-\d)/`. -/
def acctTemplate : List (Char → Bool) :=
  [isDig, isDig, isDig, (· = '-'), isDig, isDig, isDig, (· = '-'),
   isDig, isDig, isDig, isDig, isDig, isDig, isDig, (· = '-'),
   isDig, isDig, (· = '-'), isDig]

/-- A match of the account-number regex starting at this position. -/
def acctAt (cs : List Char) : Option (List Char) :=
  if prefixCheck "AC-NUM ".data cs then matchTemplate acctTemplate (cs.drop 7)
  else none

/-- `line.match(accountNumberRegExp)`: first position where the literal
and the digit template match. -/
def findAcctGroup (cs : List Char) : Option (List Char) := scanSuffixes acctAt cs

/-- Character class `[A-Z ]` of the customer-name regex. -/
def isNameCh (c : Char) : Bool := ('A' ≤ c && c ≤ 'Z') || c = ' '

/-- After the lazily matched name prefix: `\s+AC-NUM` — at least one
whitespace character, then the literal. -/
def wsThenAcnum (cs : List Char) : Bool :=
  let ws := cs.takeWhile isWs
  let rest := cs.dropWhile isWs
  !ws.isEmpty && prefixCheck "AC-NUM".data rest

/-- `line.match(/^([A-Z ]+?)\s+AC-NUM/)`: grow the `[A-Z ]` prefix one
character at a time (lazy `+?`), stopping at the first point where
whitespace followed by `AC-NUM` completes the match.  `acc` holds the
prefix reversed. -/
def nameScan : List Char → List Char → Option (List Char)
  | acc, [] =>
    if !acc.isEmpty && wsThenAcnum [] then some acc.reverse else none
  | acc, c :: t =>
    if !acc.isEmpty && wsThenAcnum (c :: t) then some acc.reverse
    else if isNameCh c then nameScan (c :: acc) t
    else none

/-- The captured customer-name group, if the anchored regex matches. -/
def findNameGroup (cs : List Char) : Option (List Char) := nameScan [] cs

/-- Template for one `(\d{2} \w{3} \d{4})` group of the
statement-period regex. -/
def dateTemplate : List (Char → Bool) :=
  [isDig, isDig, (· = ' '), isWordCh, isWordCh, isWordCh, (· = ' '),
   isDig, isDig, isDig, isDig]

/-- A match of
`/Account Statement FROM (\d{2} \w{3} \d{4}) TO (\d{2} \w{3} \d{4})/`
starting at this position; returns the two captured date strings. -/
def periodAt (cs : List Char) : Option (List Char × List Char) :=
  if prefixCheck "Account Statement FROM ".data cs then
    let cs1 := cs.drop 23
    match matchTemplate dateTemplate cs1 with
    | some g1 =>
      let cs2 := cs1.drop 11
      if prefixCheck " TO ".data cs2 then
        (matchTemplate dateTemplate (cs2.drop 4)).map (fun g2 => (g1, g2))
      else none
    | none => none
  else none

/-- `line.match(statementPeriodRegExp)`. -/
def findPeriodGroups (cs : List Char) : Option (List Char × List Char) :=
  scanSuffixes periodAt cs

/-- `accountParts[accountParts.length - 1] || ''`. -/
def lastDashPart (g : List Char) : String :=
  String.mk ((splitChar '-' g).getLastD [])

/-- `extractAccountInfo` (identical in both parser revisions): pull the
account suffix, the customer name and the statement period into the
accumulator, and derive the year prefix from the start date. -/
def extractAccountInfo (line : String) (out : ParsedOutput) : ParsedOutput :=
  let out1 :=
    match findAcctGroup line.data with
    | some g =>
      let withSuffix := { out with accountSuffix := some (lastDashPart g) }
      match findNameGroup line.data with
      | some nm => { withSuffix with name := some (String.mk (trimL nm)) }
      | none => withSuffix
    | none => out
  match findPeriodGroups line.data with
  | some (g1, g2) =>
    let withDates := { out1 with startDate := parseDate (String.mk g1),
                                 endDate := parseDate (String.mk g2) }
    match parseDate (String.mk g1) with
    | some d => { withDates with yearPrefix := some ((d.year : ℤ) / 100) }
    | none => withDates
  | none => out1

/-- `output.incomes.push` / `output.expenses.push`, keyed on the sign
test `transaction.amount > 0`. -/
def pushTx (out : ParsedOutput) (t : Transaction) : ParsedOutput :=
  if jsGt0 t.amount then { out with incomes := out.incomes ++ [t] }
  else { out with expenses := out.expenses ++ [t] }

/-! ### The authoritative FAB parser
(`src/parser/implemented-parsers/fab-bank-account-parser.ts`) -/

/-- The inline income-keyword test of the authoritative revision:
`desc.toLowerCase().includes('transfer') || … || includes('cash deposit')`. -/
def srcIncomeCheck (desc : String) : Bool :=
  let d := jsLower desc
  containsS d "transfer" || containsS d "inward" || containsS d "deposit" ||
  containsS d "reverse charges" || containsS d "atm cash deposit" ||
  containsS d "cash deposit"

/-- The deposit-keyword test of the source's pattern-2 branch. -/
def depositCheck (desc : String) : Bool :=
  let d := jsLower desc
  containsS d "deposit" || containsS d "transfer" || containsS d "inward" ||
  containsS d "cash deposit"

/-- `parseTransaction` of the authoritative revision.  The source
normalizes whitespace (`line.replace(/\s+/g, ' ').trim()`), rejects
lines without a leading `\d{2} \w{3} \d{4}` date, then tries pattern 1
(regular `DATE VALUE_DATE DESCRIPTION AMOUNT BALANCE`) and, failing
that, pattern 2 — whose regular expression is character-for-character
the same, but whose body takes the first number inside the description
as the amount and only accepts deposit-like descriptions.  (Pattern 2
can only be reached when pattern 1's date parse failed, so its own date
parse fails identically; it is embedded faithfully regardless.) -/
def parseTransaction (line : String) : Option Transaction :=
  let ts := tokens line.data
  if !startsDateB ts then none
  else
    let pattern1 :=
      match regularMatchToks ts with
      | some (dateStr, descCs, amountStr, _balanceStr) =>
        match parseDate (String.mk dateStr) with
        | some date =>
          let amount := parseAmountL amountStr
          let desc := String.mk (trimL descCs)
          let finalAmount :=
            if srcIncomeCheck desc then jsAbs amount else jsNeg (jsAbs amount)
          some { date := date, description := desc, amount := finalAmount,
                 originalText := [line] }
        | none => none
      | none => none
    match pattern1 with
    | some t => some t
    | none =>
      match regularMatchToks ts with
      | some (dateStr, fullDescCs, _possibleAmount, _balanceStr) =>
        match firstNumMatch fullDescCs with
        | some numCs =>
          match parseDate (String.mk dateStr) with
          | some date =>
            let amount := parseAmountL numCs
            let desc := String.mk (trimL (stripAmountTail (tokens fullDescCs)))
            if depositCheck desc then
              some { date := date, description := desc, amount := jsAbs amount,
                     originalText := [line] }
            else none
          | none => none
        | none => none
      | none => none

/-- The skip test at the top of the transaction-lines branch of
`performStateAction`: table headers, balance-forward lines, sheet
numbers, `Important:` footers, and lines shorter than 10 characters. -/
def skipFabLine (cl : String) : Bool :=
  containsS cl "DATE VALUE DATE DESCRIPTION" ||
  containsS cl "Balance carried forward" ||
  containsS cl "Balance brought forward" ||
  prefixCheck "Sheet no.".data cl.data ||
  containsS cl "Important:" ||
  decide (cl.data.length < 10)

/-- The account-info and year-prefix updates performed in every state at
the top of `performStateAction`. -/
def metaUpdate (cl : String) (out : ParsedOutput) (opts : ParserOptions) :
    ParsedOutput :=
  let out1 := extractAccountInfo cl out
  if yearPrefixFalsy out1.yearPrefix then
    { out1 with yearPrefix := some opts.yearPrefix }
  else out1

/-- `performStateAction` of the authoritative revision. -/
def performStateAction (s : State) (line : String) (out : ParsedOutput)
    (opts : ParserOptions) : ParsedOutput :=
  let cl := jsTrim line
  let out2 := metaUpdate cl out opts
  if s = State.TransactionLines then
    if skipFabLine cl then out2
    else
      match parseTransaction cl with
      | some t => pushTx out2 t
      | none => out2
  else out2

/-- `nextState` of the authoritative revision. -/
def nextState (s : State) (line : String) (_opts : ParserOptions) : State :=
  let cl := jsTrim (jsLower line)
  match s with
  | State.Header =>
    if containsS cl "date value date description debit credit balance" then
      State.TransactionLines
    else State.Header
  | State.TransactionLines =>
    if containsS cl "closing book balance" || containsS cl "end of statement" ||
       containsS cl "total debit txns" ||
       (containsS cl "total" && containsS cl "txns") then
      State.End
    else State.TransactionLines
  | State.End => State.End

/-- Modelled from the spec: the Statement Machine Driver of §4.2 (the
generic `statement-parser.ts` driver is not among the provided
sources).  For each line, strictly in sequence: first `action` with the
current state, then `transition`; the terminal state does not stop
consumption. -/
def runFabFrom (opts : ParserOptions) (s : State) (out : ParsedOutput) :
    List String → ParsedOutput
  | [] => out
  | l :: ls =>
    runFabFrom opts (nextState s l opts) (performStateAction s l out opts) ls

/-- One full run of the authoritative FAB plugin from the initial state
and the initial accumulator. -/
def runFab (opts : ParserOptions) (lines : List String) : ParsedOutput :=
  runFabFrom opts State.Header initialOutput lines

/-! ### The pending-transaction revision (`src/unnamed/part_001`)

This revision keeps a module-level `pendingTransaction` variable for
transactions spanning several physical lines.  It is modelled as state
threaded explicitly in and out of every call. -/

/-- `Partial<ParsedTransaction>` as the pending carry: the date and
description are always present when a pending transaction exists (both
are set under guards at creation); the amount is `none` until one has
been extracted, and itself carries an `Option ℚ` JavaScript number. -/
structure Pending where
  date : FabDate
  description : String
  amount : Option (Option ℚ)
  originalText : List String
deriving DecidableEq, Repr

/-- JavaScript truthiness of `pendingTransaction.amount` (`undefined`,
`NaN` and `0` are all falsy). -/
def pendingAmountFalsy (a : Option (Option ℚ)) : Bool :=
  match a with
  | none => true
  | some none => true
  | some (some q) => q == 0

/-- `isIncomeTransaction` of this revision (seven keywords, including
`credit`). -/
def isIncomeTransaction (description : String) : Bool :=
  let d := jsLower description
  containsS d "transfer" || containsS d "inward" || containsS d "deposit" ||
  containsS d "reverse charges" || containsS d "atm cash deposit" ||
  containsS d "cash deposit" || containsS d "credit"

/-- Pattern 2 of the `transactionPatterns` list:
`DATE VALUE_DATE DESCRIPTION CURRENCY AMOUNT BALANCE` with an
uncaptured `[A-Z]{3}` currency token.  Returns the captured groups the
loop body reads (`match[1]`, `match[3]`, `match[4]`, `match[5]`). -/
def patCurrencyToks (ts : List (List Char)) :
    Option (List Char × List Char × List Char × List Char) :=
  match ts with
  | d1 :: m1 :: y1 :: d2 :: m2 :: y2 :: rest =>
    if dateTokB d1 m1 y1 && dateTokB d2 m2 y2 then
      match rest.reverse with
      | bal :: amt :: cur :: descRev =>
        if !descRev.isEmpty && cur.length == 3 &&
           cur.all (fun c => 'A' ≤ c && c ≤ 'Z') &&
           numTokB amt && numTokB bal then
          some (joinTokens [d1, m1, y1], joinTokens descRev.reverse, amt, bal)
        else none
      | _ => none
    else none
  | _ => none

/-- Pattern 4 of the list: the literal `POS Settlement VAT AED`
description followed by three numbers; the body reads `match[1]`,
`match[3]`, `match[4]` (first number as amount) and `match[6]` (third
number as balance). -/
def patVatToks (ts : List (List Char)) :
    Option (List Char × List Char × List Char × List Char) :=
  match ts with
  | [d1, m1, y1, d2, m2, y2, w1, w2, w3, w4, n1, n2, n3] =>
    if dateTokB d1 m1 y1 && dateTokB d2 m2 y2 &&
       w1 = "POS".data && w2 = "Settlement".data && w3 = "VAT".data &&
       w4 = "AED".data && numTokB n1 && numTokB n2 && numTokB n3 then
      some (joinTokens [d1, m1, y1], joinTokens [w1, w2, w3, w4], n1, n3)
    else none
  | _ => none

/-- Pattern 5 of the list: one of the literal descriptions
`Switch Transaction`, `SW WDL Chgs`, `ATM Cash Deposit`, then amount and
balance. -/
def patSwitchToks (ts : List (List Char)) :
    Option (List Char × List Char × List Char × List Char) :=
  match ts with
  | [d1, m1, y1, d2, m2, y2, w1, w2, a, b] =>
    if dateTokB d1 m1 y1 && dateTokB d2 m2 y2 &&
       w1 = "Switch".data && w2 = "Transaction".data &&
       numTokB a && numTokB b then
      some (joinTokens [d1, m1, y1], joinTokens [w1, w2], a, b)
    else none
  | [d1, m1, y1, d2, m2, y2, w1, w2, w3, a, b] =>
    if dateTokB d1 m1 y1 && dateTokB d2 m2 y2 &&
       ((w1 = "SW".data && w2 = "WDL".data && w3 = "Chgs".data) ||
        (w1 = "ATM".data && w2 = "Cash".data && w3 = "Deposit".data)) &&
       numTokB a && numTokB b then
      some (joinTokens [d1, m1, y1], joinTokens [w1, w2, w3], a, b)
    else none
  | _ => none

/-- The `transactionPatterns` array in order (patterns 1 and 3 of the
source are the same regular expression, so the same matcher appears
twice). -/
def patResults (ts : List (List Char)) :
    List (Option (List Char × List Char × List Char × List Char)) :=
  [regularMatchToks ts, patCurrencyToks ts, regularMatchToks ts,
   patVatToks ts, patSwitchToks ts]

/-- The pattern loop body: on a match, parse the date; on success build
the transaction (keywords decide the sign), on date failure fall
through to the next pattern. -/
def tryPats (line : String) :
    List (Option (List Char × List Char × List Char × List Char)) →
    Option Transaction
  | [] => none
  | none :: rest => tryPats line rest
  | some (dateStr, descCs, amountStr, _bal) :: rest =>
    match parseDate (String.mk dateStr) with
    | some date =>
      let amount := parseAmountL amountStr
      let desc := String.mk (trimL descCs)
      let finalAmount :=
        if isIncomeTransaction desc then jsAbs amount else jsNeg (jsAbs amount)
      some { date := date, description := desc, amount := finalAmount,
             originalText := [line] }
    | none => tryPats line rest

/-- The continuation-line balance search
`cleanLine.match(/([\d,]+\.?\d*)\s*$/)`: the leftmost suffix that is a
full `[\d,]+\.?\d*` number (the line is space-normalized, so trailing
whitespace is impossible). -/
def trailingNum : List Char → Option (List Char)
  | [] => none
  | c :: t => if numTokB (c :: t) then some (c :: t) else trailingNum t

/-- The incomplete-transaction shape
`/^(\d{2} \w{3} \d{4})\s+(\d{2} \w{3} \d{4})\s+(.+)$/`: two dates and a
nonempty (greedy) remainder. -/
def incompleteToks (ts : List (List Char)) : Option (List Char × List Char) :=
  match ts with
  | d1 :: m1 :: y1 :: d2 :: m2 :: y2 :: rest =>
    if dateTokB d1 m1 y1 && dateTokB d2 m2 y2 && !rest.isEmpty then
      some (joinTokens [d1, m1, y1], joinTokens rest)
    else none
  | _ => none

/-- The amount extraction shared by the continuation branch and the
pending-transaction creation: first number in the description, sign
from the income keywords. -/
def pendingAmountFrom (desc : String) : Option (Option ℚ) :=
  match firstNumMatch desc.data with
  | some numCs =>
    let amount := parseAmountL numCs
    if isIncomeTransaction desc then some (jsAbs amount)
    else some (jsNeg (jsAbs amount))
  | none => none

/-- `parseTransaction` of the pending-transaction revision, with the
module-level `pendingTransaction` threaded in and out.  Returns the
completed transaction, if any, and the new carry value. -/
def parseTransaction1 (line : String) (pending : Option Pending) :
    Option Transaction × Option Pending :=
  let ts := tokens line.data
  let cleanCs := joinTokens ts
  if !startsDateB ts then
    match pending with
    | some p =>
      -- Continuation line: append it to the pending description.
      let p1 :=
        if !(p.description = "") then
          { p with description :=
              String.mk (p.description.data ++ ' ' :: cleanCs) }
        else p
      match trailingNum cleanCs with
      | some _bal =>
        let p2 :=
          if pendingAmountFalsy p1.amount then
            match pendingAmountFrom p1.description with
            | some a => { p1 with amount := some a }
            | none => p1
          else p1
        if !(p2.description = "") && p2.amount.isSome then
          (some { date := p2.date, description := p2.description,
                  amount := p2.amount.getD none,
                  originalText := p2.originalText }, none)
        else (none, some p2)
      | none => (none, some p1)
    | none => (none, none)
  else
    match tryPats line (patResults ts) with
    | some t => (some t, pending)
    | none =>
      match incompleteToks ts with
      | some (dateStr, descCs) =>
        match parseDate (String.mk dateStr) with
        | some date =>
          let desc := String.mk (trimL descCs)
          let base : Pending :=
            { date := date, description := desc, amount := none,
              originalText := [line] }
          let created :=
            match pendingAmountFrom (String.mk descCs) with
            | some a => { base with amount := some a }
            | none => base
          (none, some created)
        | none => (none, pending)
      | none => (none, pending)

/-- The skip test of this revision's `performStateAction`: more
boilerplate patterns, Arabic-only lines, standalone numbers, and lines
shorter than 5 characters. -/
def skipFabLine1 (cl : String) : Bool :=
  containsS cl "DATE VALUE DATE DESCRIPTION" ||
  containsS cl "Balance carried forward" ||
  containsS cl "Balance brought forward" ||
  prefixCheck "Sheet no.".data cl.data ||
  containsS cl "Important:" ||
  containsS cl "T&Cs Apply" ||
  containsS cl "First Abu Dhabi Bank" ||
  containsS cl "Contact Centre" ||
  containsS cl "endeavor to get back" ||
  (!cl.data.isEmpty &&
    cl.data.all (fun c => (0x600 ≤ c.toNat && c.toNat ≤ 0x6FF) || isWs c)) ||
  decide (cl.data.length < 5) ||
  (!cl.data.isEmpty && cl.data.all isDig)

/-- `performStateAction` of the pending-transaction revision, with the
carry threaded through. -/
def performStateAction1 (s : State) (line : String) (out : ParsedOutput)
    (opts : ParserOptions) (pending : Option Pending) :
    ParsedOutput × Option Pending :=
  let cl := jsTrim line
  let out2 := metaUpdate cl out opts
  if s = State.TransactionLines then
    if skipFabLine1 cl then (out2, pending)
    else
      match parseTransaction1 cl pending with
      | (some t, p2) => (pushTx out2 t, p2)
      | (none, p2) => (out2, p2)
  else (out2, pending)

/-- `nextState` of the pending-transaction revision (it additionally
recognises `closing statement balance`). -/
def nextState1 (s : State) (line : String) (_opts : ParserOptions) : State :=
  let cl := jsTrim (jsLower line)
  match s with
  | State.Header =>
    if containsS cl "date value date description debit credit balance" then
      State.TransactionLines
    else State.Header
  | State.TransactionLines =>
    if containsS cl "closing book balance" ||
       containsS cl "closing statement balance" ||
       containsS cl "end of statement" || containsS cl "total debit txns" ||
       (containsS cl "total" && containsS cl "txns") then
      State.End
    else State.TransactionLines
  | State.End => State.End

/-- Modelled from the spec: the §4.2 driver loop for the
pending-transaction revision, threading the carry alongside the
accumulator (action first, then transition). -/
def runFab1From (opts : ParserOptions) (s : State) (p : Option Pending)
    (out : ParsedOutput) : List String → ParsedOutput × Option Pending
  | [] => (out, p)
  | l :: ls =>
    match performStateAction1 s l out opts p with
    | (out2, p2) => runFab1From opts (nextState1 s l opts) p2 out2 ls

/-! ### Concrete scenario inputs -/

/-- The default options bag (`yearPrefix: 20`). -/
def opts0 : ParserOptions := ⟨20⟩

/-- The spec's simple single-line expense scenario. -/
def c6Line : String :=
  "01 JAN 2024 01 JAN 2024 POS Settlement GROCERY STORE DUBAI AED 150 150.00 9,850.00"

/-- The transaction the expense scenario must produce. -/
def c6Tx : Transaction :=
  { date := ⟨2024, 1, 1⟩,
    description := "POS Settlement GROCERY STORE DUBAI AED 150",
    amount := some (-150), originalText := [c6Line] }

/-- The spec's income-classification scenario. -/
def c7Line : String :=
  "02 JAN 2024 02 JAN 2024 ATM Cash Deposit P32-1234 - CDM- Dubai Mall 5,000.00 14,850.00"

/-- The transaction the income scenario must produce. -/
def c7Tx : Transaction :=
  { date := ⟨2024, 1, 2⟩,
    description := "ATM Cash Deposit P32-1234 - CDM- Dubai Mall",
    amount := some 5000, originalText := [c7Line] }

/-- A line sequence whose transaction line carries a `0.00` amount
field: the table header (to enter the transaction-lines state) followed
by a zero-amount settlement. -/
def c3Lines : List String :=
  ["DATE VALUE DATE DESCRIPTION DEBIT CREDIT BALANCE",
   "01 JAN 2024 01 JAN 2024 POS Settlement ZERO 0.00 9,850.00"]

/-- The sign property the spec claims of an accumulator: incomes
strictly positive, expenses strictly negative, nothing zero. -/
def StrictSign (out : ParsedOutput) : Prop :=
  (∀ t ∈ out.incomes, ∃ q, t.amount = some q ∧ 0 < q) ∧
  (∀ t ∈ out.expenses, ∃ q, t.amount = some q ∧ q < 0)

/-- The sign property the code actually maintains: incomes strictly
positive; an expense's numeric amount is never positive (it can be
zero, and a `NaN` amount is also routed to the expenses). -/
def SignInv (out : ParsedOutput) : Prop :=
  (∀ t ∈ out.incomes, ∃ q, t.amount = some q ∧ 0 < q) ∧
  (∀ t ∈ out.expenses, ∀ q, t.amount = some q → q ≤ 0)

/-- The zero-amount transaction that `c3Lines` makes the parser record
as an expense. -/
def c3ZeroTx : Transaction :=
  { date := ⟨2024, 1, 1⟩, description := "POS Settlement ZERO",
    amount := some 0,
    originalText := ["01 JAN 2024 01 JAN 2024 POS Settlement ZERO 0.00 9,850.00"] }

/-- A header plus one genuine income line, for the sign-invariant
witness. -/
def c3WitnessLines : List String :=
  ["DATE VALUE DATE DESCRIPTION DEBIT CREDIT BALANCE", c7Line]

/-- An unrecognizable boilerplate line for the skip-silently witness. -/
def c8Line : String := "Some random boilerplate text here"

/-- Two fragments whose distinct vertical coordinates round to the same
integer — they land in one bucket and hence on one reconstructed line. -/
def c1CounterItems : List PdfItem := [⟨"a", 0, mkRat 7 5⟩, ⟨"b", 1, 1⟩]

/-- Two fragments on clearly distinct rows. -/
def c1Items : List PdfItem := [⟨"a", 0, 2⟩, ⟨"b", 0, 1⟩]

/-- A two-page document with one fragment per page. -/
def c4Pages : List (List PdfItem) := [[⟨"a", 0, 0⟩], [⟨"b", 0, 0⟩]]

/-- A one-fragment page for the join/trim witness. -/
def c5Items : List PdfItem := [⟨"hello", 0, 0⟩]

/-- A short line list for the determinism witness. -/
def c9Lines : List String := c3Lines ++ ["Closing Book Balance 9,850.00"]

/-! ## Helper lemmas -/

/-- Sanity check for the rounding model: `jsRound` is `⌊q + 1/2⌋`,
which is `Math.round`'s rounding mode (half towards positive
infinity). -/
theorem jsRound_eq_floor (q : ℚ) : jsRound q = ⌊q + 1 / 2⌋ := by
  have hd0 : (q.den : ℚ) ≠ 0 := Nat.cast_ne_zero.mpr q.den_nz
  have h1 : q + 1 / 2 = (((2 * q.num + (q.den : ℤ) : ℤ) : ℚ)) / (((2 * q.den : ℕ) : ℚ)) := by
    conv_lhs => rw [← Rat.num_div_den q]
    push_cast
    field_simp
    ring
  rw [h1, Rat.floor_intCast_div_natCast]
  unfold jsRound
  push_cast
  rfl

/-- The page's key list is sorted descending. -/
theorem pageKeys_sorted (items : List PdfItem) :
    List.Sorted (fun a b : ℤ => b ≤ a) (pageKeys items) :=
  List.sorted_insertionSort _ _

/-- The page's key list has no duplicates. -/
theorem pageKeys_nodup (items : List PdfItem) : (pageKeys items).Nodup :=
  (List.perm_insertionSort _ _).symm.nodup
    (List.nodup_dedup (items.map (fun i => jsRound i.y)))

/-- Every fragment's rounded vertical coordinate appears among the
page's keys. -/
theorem mem_pageKeys (items : List PdfItem) (f : PdfItem) (hf : f ∈ items) :
    jsRound f.y ∈ pageKeys items := by
  unfold pageKeys
  rw [(List.perm_insertionSort _ _).mem_iff, List.mem_dedup]
  exact List.mem_map_of_mem _ hf

/-- The emitted keys are strictly descending. -/
theorem emittedKeys_strict (items : List PdfItem) :
    List.Pairwise (fun a b : ℤ => b < a) (emittedKeys items) := by
  have hs : List.Pairwise (fun a b : ℤ => b ≤ a) (emittedKeys items) :=
    List.Pairwise.sublist (List.filter_sublist _) (pageKeys_sorted items)
  have hn : (emittedKeys items).Nodup :=
    List.Nodup.sublist (List.filter_sublist _) (pageKeys_nodup items)
  exact (hs.and hn).imp (fun hab => lt_of_le_of_ne hab.1 (Ne.symm hab.2))

/-- A present key has a first index. -/
theorem firstIdx_of_mem : ∀ (l : List ℤ) (k : ℤ), k ∈ l →
    ∃ i, firstIdx l k = some i := by
  intro l
  induction l with
  | nil => intro k hk; cases hk
  | cons a t ih =>
    intro k hk
    by_cases h : a = k
    · exact ⟨0, by simp [firstIdx, h]⟩
    · have hkt : k ∈ t := by
        cases hk with
        | head => exact absurd rfl h
        | tail _ hm => exact hm
      obtain ⟨i, hi⟩ := ih k hkt
      exact ⟨i + 1, by simp [firstIdx, h, hi]⟩

/-- In a strictly descending list, a larger member's first index comes
strictly before a smaller member's. -/
theorem firstIdx_lt : ∀ (l : List ℤ), List.Pairwise (fun a b : ℤ => b < a) l →
    ∀ k1 k2 : ℤ, k1 ∈ l → k2 ∈ l → k2 < k1 →
    ∃ i j, firstIdx l k1 = some i ∧ firstIdx l k2 = some j ∧ i < j := by
  intro l
  induction l with
  | nil => intro _ k1 _ h1; intro h2 _; cases h1
  | cons a t ih =>
    intro hp k1 k2 h1 h2 hlt
    have ha : ∀ b ∈ t, b < a := fun b hb => (List.pairwise_cons.mp hp).1 b hb
    have hpt : List.Pairwise (fun a b : ℤ => b < a) t :=
      (List.pairwise_cons.mp hp).2
    by_cases hk1 : a = k1
    · have hk2 : ¬ a = k2 := fun h => absurd (h ▸ hlt) (by rw [hk1]; exact lt_irrefl _)
      have hk2t : k2 ∈ t := by
        cases h2 with
        | head => exact absurd rfl hk2
        | tail _ hm => exact hm
      obtain ⟨j, hj⟩ := firstIdx_of_mem t k2 hk2t
      exact ⟨0, j + 1, by simp [firstIdx, hk1], by simp [firstIdx, hk2, hj],
        Nat.succ_pos j⟩
    · have hk1t : k1 ∈ t := by
        cases h1 with
        | head => exact absurd rfl hk1
        | tail _ hm => exact hm
      have hk2 : ¬ a = k2 := by
        intro h
        have := ha k1 hk1t
        rw [h] at this
        exact absurd (lt_trans hlt this) (lt_irrefl k2)
      have hk2t : k2 ∈ t := by
        cases h2 with
        | head => exact absurd rfl hk2
        | tail _ hm => exact hm
      obtain ⟨i, j, hi, hj, hij⟩ := ih hpt k1 k2 hk1t hk2t hlt
      exact ⟨i + 1, j + 1, by simp [firstIdx, hk1, hi],
        by simp [firstIdx, hk2, hj], Nat.succ_lt_succ hij⟩

/-- Generic shape of the emit filter: dropping empty lines from a mapped
key list is filtering then mapping. -/
theorem filterMap_if_eq (g : ℤ → String) : ∀ l : List ℤ,
    (l.filterMap (fun k => if g k = "" then none else some (g k))) =
    (l.filter (fun k => decide (¬ g k = ""))).map g := by
  intro l
  induction l with
  | nil => rfl
  | cons a t ih => by_cases h : g a = "" <;> simp [h, ih]

/-- The page's output lines are exactly the emitted keys' bucket lines,
in emitted-key order. -/
theorem processPage_eq (items : List PdfItem) :
    processPage items = (emittedKeys items).map (lineOfBucket items) :=
  filterMap_if_eq (lineOfBucket items) (pageKeys items)

/-! ## Claim theorems -/

/-- C1 counterexample: in the page `c1CounterItems`, fragment `"a"` has
vertical coordinate `7/5` and fragment `"b"` has `1`, so `y1 > y2`; but
`Math.round` sends both to the bucket `1`, the two fragments share one
reconstructed line, and that line does not precede itself — the claim's
unrounded ordering property is false on this page. -/
theorem c1_counter :
    ¬ (∀ f1 ∈ c1CounterItems, ∀ f2 ∈ c1CounterItems,
        f2.y < f1.y → linePrecedesB c1CounterItems f1 f2 = true) := by
  decide

/-- C1 (amended): on any page, if two fragments' *rounded* vertical
coordinates are strictly ordered and neither fragment's row is dropped
as empty, then the first fragment's reconstructed line strictly
precedes the second's in the page's output sequence (whose lines are
exactly the emitted buckets, top to bottom); and within any one row,
fragments are arranged in ascending order of their horizontal
coordinate. -/
theorem c1_row_ordering : ∀ (items : List PdfItem) (f1 f2 : PdfItem) (k : ℤ),
    f1 ∈ items → f2 ∈ items → jsRound f2.y < jsRound f1.y →
    lineOfBucket items (jsRound f1.y) ≠ "" →
    lineOfBucket items (jsRound f2.y) ≠ "" →
    linePrecedesB items f1 f2 = true ∧
    processPage items = (emittedKeys items).map (lineOfBucket items) ∧
    List.Pairwise (fun a b : PdfItem => a.x ≤ b.x) (sortedBucket items k) := by
  intro items f1 f2 k h1 h2 hlt hne1 hne2
  refine ⟨?_, processPage_eq items, List.sorted_insertionSort _ _⟩
  have hm1 : jsRound f1.y ∈ emittedKeys items :=
    List.mem_filter.mpr ⟨mem_pageKeys items f1 h1, by simp [hne1]⟩
  have hm2 : jsRound f2.y ∈ emittedKeys items :=
    List.mem_filter.mpr ⟨mem_pageKeys items f2 h2, by simp [hne2]⟩
  obtain ⟨i, j, hi, hj, hij⟩ :=
    firstIdx_lt (emittedKeys items) (emittedKeys_strict items) _ _ hm1 hm2 hlt
  unfold linePrecedesB
  rw [hi, hj]
  simpa using hij

/-- C1 witness: on the two-row page `c1Items`, the fragment at rounded
row 2 precedes the fragment at rounded row 1, and row 2 is sorted by
horizontal coordinate. -/
theorem c1_row_ordering_witness :
    linePrecedesB c1Items ⟨"a", 0, 2⟩ ⟨"b", 0, 1⟩ = true ∧
    processPage c1Items = (emittedKeys c1Items).map (lineOfBucket c1Items) ∧
    List.Pairwise (fun a b : PdfItem => a.x ≤ b.x) (sortedBucket c1Items 2) :=
  c1_row_ordering c1Items ⟨"a", 0, 2⟩ ⟨"b", 0, 1⟩ 2 (by decide) (by decide)
    (by decide) (by decide) (by decide)

/-- C4 counterexample: on the two-page document `c4Pages`, `readPdf`
returns the two pages' line sequences as two separate arrays, not the
single flat concatenated sequence. -/
theorem c4_counter :
    readPdfModel c4Pages = [["a"], ["b"]] ∧ readPdfModel c4Pages ≠ [["a", "b"]] := by
  decide

/-- C4 (amended): `readPdf` returns one line sequence *per page*, in
ascending page order; concatenating them in that order yields the
whole-document flat sequence described by the spec (the flattening is
left to the caller). -/
theorem c4_page_concat : ∀ pages : List (List PdfItem),
    (readPdfModel pages).flatten = reconstructSpec pages ∧
    (readPdfModel pages).length = pages.length := by
  intro pages
  constructor
  · induction pages with
    | nil => rfl
    | cons p ps ih => simp [readPdfModel, reconstructSpec] at ih ⊢; exact ih
  · simp [readPdfModel]

/-- C5: every line a page emits is nonempty and is the join-with-single-
spaces-then-trim of one bucket's fragment texts; conversely every bucket
whose joined, trimmed text is nonempty is emitted.  (Empty rows are
dropped.) -/
theorem c5_join_trim : ∀ items : List PdfItem,
    (∀ l ∈ processPage items,
      l ≠ "" ∧ ∃ k ∈ pageKeys items, l = lineOfBucket items k) ∧
    (∀ k ∈ pageKeys items,
      lineOfBucket items k ≠ "" → lineOfBucket items k ∈ processPage items) := by
  intro items
  constructor
  · intro l hl
    unfold processPage at hl
    rw [List.mem_filterMap] at hl
    obtain ⟨k, hk, hfk⟩ := hl
    by_cases he : lineOfBucket items k = ""
    · simp [he] at hfk
    · simp only [he, if_neg he, if_false, Option.some.injEq] at hfk
      exact ⟨hfk ▸ he, k, hk, hfk.symm⟩
  · intro k hk hne
    unfold processPage
    rw [List.mem_filterMap]
    exact ⟨k, hk, by simp [hne]⟩

/-- C5 witness: the one-fragment page `c5Items` emits exactly its
bucket's joined and trimmed text. -/
theorem c5_join_trim_witness : lineOfBucket c5Items 0 ∈ processPage c5Items :=
  (c5_join_trim c5Items).2 0 (by decide) (by decide)

/-- `extractAccountInfo` never touches the transaction lists. -/
theorem extractAccountInfo_lists (line : String) (out : ParsedOutput) :
    (extractAccountInfo line out).incomes = out.incomes ∧
    (extractAccountInfo line out).expenses = out.expenses := by
  simp only [extractAccountInfo]
  repeat' split
  all_goals exact ⟨rfl, rfl⟩

/-- The account-info/year-prefix preamble never touches the transaction
lists. -/
theorem metaUpdate_lists (cl : String) (out : ParsedOutput) (opts : ParserOptions) :
    (metaUpdate cl out opts).incomes = out.incomes ∧
    (metaUpdate cl out opts).expenses = out.expenses := by
  have h := extractAccountInfo_lists cl out
  simp only [metaUpdate]
  split
  · exact ⟨h.1, h.2⟩
  · exact ⟨h.1, h.2⟩

/-- The sign invariant only looks at the transaction lists. -/
theorem signInv_of_lists {a b : ParsedOutput} (h1 : a.incomes = b.incomes)
    (h2 : a.expenses = b.expenses) (h : SignInv b) : SignInv a := by
  constructor
  · intro t ht
    rw [h1] at ht
    exact h.1 t ht
  · intro t ht
    rw [h2] at ht
    exact h.2 t ht

/-- Pushing a transaction through the sign-keyed `push` preserves the
sign invariant: the income branch is guarded by `amount > 0`, and the
expense branch by its negation. -/
theorem signInv_pushTx {out : ParsedOutput} {t : Transaction} (h : SignInv out) :
    SignInv (pushTx out t) := by
  unfold pushTx
  split
  case isTrue hgt =>
    constructor
    · intro u hu
      rcases List.mem_append.mp hu with h1 | h2
      · exact h.1 u h1
      · rw [List.mem_singleton] at h2
        subst h2
        unfold jsGt0 at hgt
        cases ha : u.amount with
        | none => rw [ha] at hgt; exact absurd hgt (by simp)
        | some q => rw [ha] at hgt; exact ⟨q, rfl, of_decide_eq_true hgt⟩
    · intro u hu
      exact h.2 u hu
  case isFalse hgt =>
    constructor
    · intro u hu
      exact h.1 u hu
    · intro u hu
      rcases List.mem_append.mp hu with h1 | h2
      · exact h.2 u h1
      · rw [List.mem_singleton] at h2
        subst h2
        intro q hq
        unfold jsGt0 at hgt
        rw [hq] at hgt
        simp only [decide_eq_true_eq] at hgt
        exact le_of_not_lt hgt

/-- One action step preserves the sign invariant, in every state. -/
theorem signInv_step (s : State) (line : String) (out : ParsedOutput)
    (opts : ParserOptions) (h : SignInv out) :
    SignInv (performStateAction s line out opts) := by
  have hm := metaUpdate_lists (jsTrim line) out opts
  have hmeta : SignInv (metaUpdate (jsTrim line) out opts) :=
    signInv_of_lists hm.1 hm.2 h
  simp only [performStateAction]
  split
  · split
    · exact hmeta
    · split
      · exact signInv_pushTx hmeta
      · exact hmeta
  · exact hmeta

/-- The sign invariant is preserved along any whole run. -/
theorem signInv_run (opts : ParserOptions) : ∀ (lines : List String) (s : State)
    (out : ParsedOutput), SignInv out → SignInv (runFabFrom opts s out lines) := by
  intro lines
  induction lines with
  | nil => intro s out h; exact h
  | cons l ls ih =>
    intro s out h
    exact ih (nextState s l opts) (performStateAction s l out opts)
      (signInv_step s l out opts h)

/-- C2: the FAB plugin's terminal state is absorbing — for every line
and every options value, `nextState State.End line opts = State.End`. -/
theorem c2_terminal_absorbing : ∀ (line : String) (opts : ParserOptions),
    nextState State.End line opts = State.End := fun _ _ => rfl

/-- C10: the FAB plugin's state progression is monotone in the order
`Header < TransactionLines < End`: `Header` maps only to `Header` or
`TransactionLines`, `TransactionLines` only to itself or `End`, and
`End` only to itself — transaction parsing can never re-enter the
header state. -/
theorem c10_state_monotone : ∀ (line : String) (opts : ParserOptions),
    (nextState State.Header line opts = State.Header ∨
     nextState State.Header line opts = State.TransactionLines) ∧
    (nextState State.TransactionLines line opts = State.TransactionLines ∨
     nextState State.TransactionLines line opts = State.End) ∧
    nextState State.End line opts = State.End := by
  intro line opts
  refine ⟨?_, ?_, rfl⟩
  · simp only [nextState]
    split
    · exact Or.inr rfl
    · exact Or.inl rfl
  · simp only [nextState]
    split
    · exact Or.inr rfl
    · exact Or.inl rfl

/-- C6: the spec's simple single-line transaction scenario — processing
the grocery-store line in the transaction-lines state yields exactly
one expense with date 2024-01-01, amount −150.00 and description
`POS Settlement GROCERY STORE DUBAI AED 150`, appended to the expenses
list. -/
theorem c6_expense_scenario :
    performStateAction State.TransactionLines c6Line initialOutput opts0 =
      { initialOutput with yearPrefix := some 20, expenses := [c6Tx] } := by
  decide

/-- C7: the spec's income-classification scenario — processing the
ATM-cash-deposit line in the transaction-lines state yields exactly one
income with amount 5000.00 appended to the incomes list (the `deposit`
keyword in the description forces the positive sign). -/
theorem c7_income_scenario :
    performStateAction State.TransactionLines c7Line initialOutput opts0 =
      { initialOutput with yearPrefix := some 20, incomes := [c7Tx] } := by
  decide

/-- C3 counterexample: the claim's strict sign property is false — a
transaction line whose amount field reads `0.00` (sequence `c3Lines`,
processed from the initial accumulator) is recorded in the expenses
list with amount `0`, which is neither non-zero nor strictly
negative. -/
theorem c3_counter : ¬ StrictSign (runFab opts0 c3Lines) := by
  intro h
  obtain ⟨q, hq, hlt⟩ := h.2 c3ZeroTx (by decide)
  have hq0 : (some (0 : ℚ) : Option ℚ) = some q := hq
  injection hq0 with hq0
  rw [← hq0] at hlt
  exact lt_irrefl 0 hlt

/-- C3 (amended): after processing any line sequence from the initial
accumulator, every income carries a strictly positive numeric amount,
and every expense's numeric amount is at most zero — a zero amount is
possible (recorded as an expense), so "never zero" and "strictly
negative" do not hold. -/
theorem c3_sign_invariant : ∀ (opts : ParserOptions) (lines : List String),
    SignInv (runFab opts lines) := by
  intro opts lines
  refine signInv_run opts lines State.Header initialOutput ⟨?_, ?_⟩
  · intro t ht
    exact absurd ht (List.not_mem_nil t)
  · intro t ht
    exact absurd ht (List.not_mem_nil t)

/-- C3 witness: the income recorded from the deposit line of
`c3WitnessLines` indeed carries a strictly positive amount. -/
theorem c3_sign_invariant_witness : ∃ q, c7Tx.amount = some q ∧ 0 < q :=
  (c3_sign_invariant opts0 c3WitnessLines).1 c7Tx (by decide)

/-- C8: a line that matches none of the transaction patterns is skipped
silently — a line whose normalization does not begin with a
`DD MMM YYYY` date makes `parseTransaction` return `undefined`, and
whenever `parseTransaction` returns `undefined` the transaction-lines
action leaves both the incomes and the expenses lists unchanged (and,
being total, raises nothing). -/
theorem c8_unrecognized_skip : ∀ (line : String) (out : ParsedOutput)
    (opts : ParserOptions),
    (¬ startsDateB (tokens line.data) = true → parseTransaction line = none) ∧
    (parseTransaction (jsTrim line) = none →
      (performStateAction State.TransactionLines line out opts).incomes =
        out.incomes ∧
      (performStateAction State.TransactionLines line out opts).expenses =
        out.expenses) := by
  intro line out opts
  constructor
  · intro h
    rw [Bool.not_eq_true] at h
    simp [parseTransaction, h]
  · intro hp
    have hm := metaUpdate_lists (jsTrim line) out opts
    simp only [performStateAction, if_pos rfl, hp, ite_self, ite_true]
    exact hm

/-- C8 witness: the boilerplate line `c8Line` is skipped without
touching the accumulator's lists. -/
theorem c8_unrecognized_skip_witness :
    parseTransaction c8Line = none ∧
    (performStateAction State.TransactionLines c8Line initialOutput opts0).incomes = [] ∧
    (performStateAction State.TransactionLines c8Line initialOutput opts0).expenses = [] := by
  have h := c8_unrecognized_skip c8Line initialOutput opts0
  exact ⟨h.1 (by decide), (h.2 (by decide)).1, (h.2 (by decide)).2⟩

/-- C9: running the pending-transaction revision twice over the same
line sequence, each run starting from a freshly initialized accumulator
and a freshly reset pending-transaction carry, produces structurally
equal results — the embedding threads the module-level carry
explicitly, so a run's outcome depends only on its inputs. -/
theorem c9_fresh_runs_equal : ∀ (opts : ParserOptions) (lines : List String)
    (p1 p2 : Option Pending) (o1 o2 : ParsedOutput),
    p1 = none → p2 = none → o1 = initialOutput → o2 = initialOutput →
    runFab1From opts State.Header p1 o1 lines =
      runFab1From opts State.Header p2 o2 lines := by
  intro opts lines p1 p2 o1 o2 h1 h2 h3 h4
  subst h1; subst h2; subst h3; subst h4
  rfl

/-- C9 witness: two fresh runs over `c9Lines` agree. -/
theorem c9_fresh_runs_equal_witness :
    runFab1From opts0 State.Header none initialOutput c9Lines =
      runFab1From opts0 State.Header none initialOutput c9Lines :=
  c9_fresh_runs_equal opts0 c9Lines none none initialOutput initialOutput
    rfl rfl rfl rfl
